import Mathlib

/-!
A shallow embedding of the flash HTTP router and request context
(package `app`, file `router.go`, and package `ctx`), with theorems
about route registration, resolution, middleware chain compilation,
dispatch fallback, the route cache, and the pooled request context.

Go maps are embedded as association lists: inserting an existing key
replaces its value in place, inserting a fresh key appends.  Go's `range`
over a map visits entries in an order that is randomized per scan; where a
claim is sensitive to that order — the linear scan over the static map in
`findRoute` — the enumeration order is an explicit argument
(`findRouteOrd`), and `findRoute` instantiates it with the
registration-order enumeration (adequate for the order-insensitive
claims: single-entry tables, keyed lookups, and existence checks).
Machine integers that matter are kept explicit (`uint8` and `uint16`
fields are reduced modulo 256 / 65536).  Fallible operations
(nil-pointer dereferences) return `Option`.
-/

/-- A single bound path parameter (httprouter's `Param`): a key/value pair. -/
structure Param where
  key : String
  value : String
deriving DecidableEq, Repr

/-- First-match lookup of a parameter by name, returning "" when absent.
This is httprouter's `Params.ByName` and also the scan the context performs
over its stack-allocated parameter array in `DefaultContext.Param`. -/
def byName (ps : List Param) (name : String) : String :=
  match ps with
  | [] => ""
  | p :: rest => if p.key = name then p.value else byName rest name

/-- The `containsParams` from `router.go`: does the path contain `:` or `*`?
The same character test is `strings.ContainsAny(pattern, ":*")` in `matchRoute`. -/
def containsParams (path : String) : Bool :=
  path.data.any fun c => c = ':' || c = '*'

/-- Segment characters: everything up to the next `/`. -/
def notSlash (c : Char) : Bool := c != '/'

/-- Skip a single leading `/`, as the index bumps in `matchRoute` do. -/
def skipSlash : List Char → List Char
  | [] => []
  | c :: rest => if c = '/' then rest else c :: rest

/-- The segment-walking loop of `matchRoute` (`router.go`), written with
explicit fuel so that it is structurally recursive.  Each Go loop iteration
consumes at least one character of the pattern, so `pattern.length + 1`
fuel always suffices (`matchLoopFuel_irrel` below).  Per iteration: take the
next pattern segment and path segment; a `*name` segment binds the whole
remaining path and succeeds; a `:name` segment binds the path segment; a
literal segment must be equal to the path segment; then one trailing `/` is
skipped on each side.  The loop runs only while both strings are unconsumed,
and at the end both must be fully consumed. -/
def matchLoopFuel : Nat → List Char → List Char → List Param → Option (List Param)
  | 0, _, _, _ => none
  | _ + 1, [], [], acc => some acc
  | _ + 1, [], _ :: _, _ => none
  | _ + 1, _ :: _, [], _ => none
  | fuel + 1, p :: pt, q :: qt, acc =>
    let patSeg := (p :: pt).takeWhile notSlash
    let patRest := (p :: pt).dropWhile notSlash
    let pathSeg := (q :: qt).takeWhile notSlash
    let pathRest := (q :: qt).dropWhile notSlash
    match patSeg with
    | [] =>
      -- empty pattern segment: the literal comparison branch
      if ([] : List Char) = pathSeg then
        matchLoopFuel fuel (skipSlash patRest) (skipSlash pathRest) acc
      else
        none
    | pc :: nm =>
      if pc = '*' then
        -- wildcard: bind the remaining unconsumed path and terminate
        some (acc ++ [⟨String.mk nm, String.mk (q :: qt)⟩])
      else if pc = ':' then
        matchLoopFuel fuel (skipSlash patRest) (skipSlash pathRest)
          (acc ++ [⟨String.mk nm, String.mk pathSeg⟩])
      else if patSeg = pathSeg then
        matchLoopFuel fuel (skipSlash patRest) (skipSlash pathRest) acc
      else
        none

/-- The `matchRoute` from `router.go`.  Returns `none` where the Go function
returns a nil slice (exact textual match, parameter-free pattern, or
mismatch) and `some params` where it returns a non-nil parameter slice.
Note the Go caller `findRoute` treats nil as a miss, so the exact-match
shortcut reports a miss for dynamic lookup purposes. -/
def matchRoute (pattern path : String) : Option (List Param) :=
  if pattern = path then none
  else if !(containsParams pattern) then none
  else matchLoopFuel (pattern.data.length + 1) (skipSlash pattern.data) (skipSlash path.data) []

/-! ## Middleware chains (`FastChain`, `newFastChain`)

Go handlers receive a mutable context and return an error; the embedding
passes the context state explicitly: a handler maps a context state to an
updated state plus an optional error. -/

/-- The `Handler` from `app`: the state-passing embedding of `func(ctx.Ctx) error`. -/
def Handler (σ ε : Type) : Type := σ → σ × Option ε

/-- The `Middleware` from `app`: `func(Handler) Handler`. -/
def Middleware (σ ε : Type) : Type := Handler σ ε → Handler σ ε

/-- The `FastChain` from `router.go`: a pre-compiled execution function. -/
structure FastChain (σ ε : Type) where
  exec : Handler σ ε

/-- The `newFastChain` from `router.go`, including the fixed-arity special
cases for 0..3 middlewares and the right-to-left loop composition for more. -/
def newFastChain {σ ε : Type} (middlewares : List (Middleware σ ε)) (handler : Handler σ ε) :
    FastChain σ ε :=
  match middlewares with
  | [] => ⟨handler⟩
  | [mw] => ⟨mw handler⟩
  | [mw1, mw2] => ⟨mw1 (mw2 handler)⟩
  | [mw1, mw2, mw3] => ⟨mw1 (mw2 (mw3 handler))⟩
  | mws => ⟨mws.foldr (fun mw acc => mw acc) handler⟩

/-! ## The route table and app state

`FastRouter.static` and `FastRouter.simple` are Go maps keyed by
`method + ":" + path`; `DefaultApp.routeCache` is a Go map keyed the same
way whose stored value may be a nil pointer (a recorded miss).  All are
embedded as association lists with in-place update and iteration in list
order. -/

/-- Go map insert: replace the value in place if the key exists, else append. -/
def mapInsert {α : Type} (k : String) (v : α) : List (String × α) → List (String × α)
  | [] => [(k, v)]
  | (k', v') :: rest => if k' = k then (k, v) :: rest else (k', v') :: mapInsert k v rest

/-- Go map lookup. -/
def mapLookup {α : Type} (k : String) : List (String × α) → Option α
  | [] => none
  | (k', v) :: rest => if k' = k then some v else mapLookup k rest

/-- The `routeResult` from `router.go`. -/
structure RouteResult (σ ε : Type) where
  chain : FastChain σ ε
  params : List Param
  pattern : String

/-- The route-relevant state of `DefaultApp` + `FastRouter`:
the `simple` and `static` maps, the global middleware list, and the
dynamic-route cache (a cached `none` is Go's stored nil = recorded miss). -/
structure AppState (σ ε : Type) where
  simple : List (String × Handler σ ε) := []
  static : List (String × FastChain σ ε) := []
  middleware : List (Middleware σ ε) := []
  routeCache : List (String × Option (RouteResult σ ε)) := []

/-- The `DefaultApp.Use`: append global middleware (no-op on an empty list). -/
def use {σ ε : Type} (mws : List (Middleware σ ε)) (a : AppState σ ε) : AppState σ ε :=
  if mws.isEmpty then a else { a with middleware := a.middleware ++ mws }

/-- The `DefaultApp.handle` from `router.go`: combine global then route-specific
middleware, pre-compile the chain, and register under `method:path` in the
`simple` map (no middleware, no params), the `static` map (static path with
middleware), or — via `addDynamicRoute` — the same `static` map keyed by the
pattern (parameterized path). -/
def handle {σ ε : Type} (method path : String) (h : Handler σ ε)
    (mws : List (Middleware σ ε)) (a : AppState σ ε) : AppState σ ε :=
  let allMiddleware := a.middleware ++ mws
  let chain := newFastChain allMiddleware h
  let routeKey := method ++ ":" ++ path
  if allMiddleware.isEmpty && !(containsParams path) then
    { a with simple := mapInsert routeKey h a.simple }
  else if !(containsParams path) then
    { a with static := mapInsert routeKey chain a.static }
  else
    -- addDynamicRoute: "we'll store dynamic routes in a simple map"
    { a with static := mapInsert routeKey chain a.static }

/-- The `strings.HasPrefix`. -/
def strHasPre (pre s : String) : Bool := pre.data.isPrefixOf s.data

/-- The `strings.TrimPrefix`. -/
def strTrimPre (pre s : String) : String :=
  if strHasPre pre s then String.mk (s.data.drop pre.data.length) else s

/-- The linear scan inside `findRoute`: walk the given enumeration of the
`static` map's entries (the order Go's `range` presents them in, randomized
per scan), keep those whose key starts with `method:`, and return the first
whose pattern matches the path (a non-nil `matchRoute` result). -/
def scanDynamic {σ ε : Type} (method path : String) :
    List (String × FastChain σ ε) → Option (RouteResult σ ε)
  | [] => none
  | (routeKey, chain) :: rest =>
    if strHasPre (method ++ ":") routeKey then
      let routePattern := strTrimPre (method ++ ":") routeKey
      match matchRoute routePattern path with
      | some params => some ⟨chain, params, routePattern⟩
      | none => scanDynamic method path rest
    else
      scanDynamic method path rest

/-- The `DefaultApp.findRoute` from `router.go`, with the enumeration order
of the `range` over `a.router.static` made explicit (`order`; the Go
runtime presents the entries of this scan in a randomized order): check the
route cache under `method:path` (a stored `none` is a recorded miss); on a
cache miss scan the enumerated `static` entries and record the outcome —
hit or miss — only while the cache holds fewer than 1000 entries.  Returns
the result together with the updated app state (only the cache changes). -/
def findRouteOrd {σ ε : Type} (method path : String)
    (order : List (String × FastChain σ ε)) (a : AppState σ ε) :
    Option (RouteResult σ ε) × AppState σ ε :=
  let cacheKey := method ++ ":" ++ path
  match mapLookup cacheKey a.routeCache with
  | some cached => (cached, a)
  | none =>
    match scanDynamic method path order with
    | some result =>
      if a.routeCache.length < 1000 then
        (some result, { a with routeCache := mapInsert cacheKey (some result) a.routeCache })
      else
        (some result, a)
    | none =>
      if a.routeCache.length < 1000 then
        (none, { a with routeCache := mapInsert cacheKey none a.routeCache })
      else
        (none, a)

/-- The `DefaultApp.findRoute` with the map entries enumerated in
registration order — the canonical enumeration, used by the claims whose
route tables make the scan order immaterial. -/
def findRoute {σ ε : Type} (method path : String) (a : AppState σ ε) :
    Option (RouteResult σ ε) × AppState σ ε :=
  findRouteOrd method path a.static a

/-- The `strings.SplitN(routeKey, ":", 2)` as used by
`pathExistsWithDifferentMethod`: `none` when the key holds no `:`
(the Go loop body then skips the entry). -/
def splitMethodPath (routeKey : String) : Option (String × String) :=
  let ms := routeKey.data.takeWhile (fun c => c != ':')
  match routeKey.data.dropWhile (fun c => c != ':') with
  | [] => none
  | _ :: tail => some (String.mk ms, String.mk tail)

/-- The `DefaultApp.pathExistsWithDifferentMethod` from `router.go`: scan the
`simple` map for an equal path under a different method, then the `static`
map for an equal path or a matching dynamic pattern under a different
method. -/
def pathExistsWithDifferentMethod {σ ε : Type} (method path : String) (a : AppState σ ε) : Bool :=
  (a.simple.any fun kv =>
    match splitMethodPath kv.1 with
    | some (routeMethod, routePath) => routePath == path && routeMethod != method
    | none => false) ||
  (a.static.any fun kv =>
    match splitMethodPath kv.1 with
    | some (routeMethod, routePath) =>
      (routePath == path && routeMethod != method) ||
      (routeMethod != method && (matchRoute routePath path).isSome)
    | none => false)

/-- The routing decision of `ServeHTTP` / `ServeFastHTTP` for one request:
which of the five dispatch arms runs.  Both entry points perform exactly
this sequence: `simple` lookup, `static` lookup, `findRoute`, then the
method-not-allowed check, and finally not-found. -/
inductive DispatchOutcome (σ ε : Type) where
  | simpleHandler (h : Handler σ ε)
  | staticChain (chain : FastChain σ ε)
  | dynamicRoute (result : RouteResult σ ε)
  | methodNotAllowed
  | notFound

/-- The shared resolution logic of `ServeHTTP` and `ServeFastHTTP`
(`router.go`): the `routeKey` built there is `method + ":" + path` in every
branch (the GET special case builds the same string).  Returns the outcome
and the app state as updated by `findRoute`'s caching. -/
def serveDispatch {σ ε : Type} (method path : String) (a : AppState σ ε) :
    DispatchOutcome σ ε × AppState σ ε :=
  let routeKey := method ++ ":" ++ path
  match mapLookup routeKey a.simple with
  | some h => (.simpleHandler h, a)
  | none =>
    match mapLookup routeKey a.static with
    | some chain => (.staticChain chain, a)
    | none =>
      match findRoute method path a with
      | (some result, a') => (.dynamicRoute result, a')
      | (none, a') =>
        if pathExistsWithDifferentMethod method path a' then
          (.methodNotAllowed, a')
        else
          (.notFound, a')

/-! ## The request context (`ctx` package, `DefaultContext`)

The two transport backings are embedded as explicit state: the net/http
response writer records its header map, the status/header snapshot taken at
`WriteHeader` time (net/http sends exactly that snapshot; later map edits
have no wire effect), and the accumulated body; the fasthttp request
context holds a buffered response whose status, content type, headers and
body may be overwritten until the handler returns.  Nil pointers are
`none`, and operations that would dereference a nil pointer return
`none`. -/

/-- The net/http `ResponseWriter` as observed by this package: a header
map, the status and header snapshot taken by the first `WriteHeader`
(later `WriteHeader` calls and header-map edits do not change what was
sent), and the body bytes written so far. -/
structure RecordedResponse where
  headerMap : List (String × List String) := []
  sentStatus : Option Nat := none
  sentHeader : List (String × List String) := []
  body : String := ""
deriving DecidableEq, Repr

/-- The `ResponseWriter.WriteHeader`: only the first call takes effect. -/
def RecordedResponse.writeHeader (status : Nat) (w : RecordedResponse) : RecordedResponse :=
  match w.sentStatus with
  | some _ => w
  | none => { w with sentStatus := some status, sentHeader := w.headerMap }

/-- The `ResponseWriter.Write` / `io.WriteString`: append to the body. -/
def RecordedResponse.write (b : String) (w : RecordedResponse) : RecordedResponse :=
  { w with body := w.body ++ b }

/-- The `http.Header.Get`: first value for the key, or "". -/
def headerGet (k : String) (h : List (String × List String)) : String :=
  match mapLookup k h with
  | some (v :: _) => v
  | _ => ""

/-- The buffered fasthttp response inside a `fasthttp.RequestCtx`:
`SetStatusCode`, `SetContentType`, `SetBody`/`SetBodyString` and
`Response.Header.Set` all freely overwrite it until the handler returns. -/
structure FastResponse where
  statusCode : Nat := 200
  contentType : String := ""
  respHeaders : List (String × String) := []
  body : String := ""
deriving DecidableEq, Repr

/-- The request/response halves of a `fasthttp.RequestCtx` that this
package touches. -/
structure FastRequestCtx where
  reqMethod : String := ""
  reqPath : String := ""
  response : FastResponse := {}
deriving DecidableEq, Repr

/-- The `fctx.SetStatusCode`. -/
def FastRequestCtx.setStatusCode (s : Nat) (f : FastRequestCtx) : FastRequestCtx :=
  { f with response := { f.response with statusCode := s } }

/-- The `fctx.SetContentType`. -/
def FastRequestCtx.setContentType (ct : String) (f : FastRequestCtx) : FastRequestCtx :=
  { f with response := { f.response with contentType := ct } }

/-- The `fctx.SetBodyString` / `fctx.SetBody`: replace the buffered body. -/
def FastRequestCtx.setBodyString (b : String) (f : FastRequestCtx) : FastRequestCtx :=
  { f with response := { f.response with body := b } }

/-- The `fctx.Response.Header.Set`. -/
def FastRequestCtx.setRespHeader (k v : String) (f : FastRequestCtx) : FastRequestCtx :=
  { f with response := { f.response with respHeaders := mapInsert k v f.response.respHeaders } }

/-- The `fctx.Response.Header.Add`. -/
def FastRequestCtx.addRespHeader (k v : String) (f : FastRequestCtx) : FastRequestCtx :=
  { f with response := { f.response with respHeaders := f.response.respHeaders ++ [(k, v)] } }

/-- The net/http `*http.Request` fields this package reads. -/
structure NetRequest where
  reqMethod : String := ""
  urlPath : String := ""
  rawQuery : String := ""
deriving DecidableEq, Repr

/-- The `headerContentTypeText` from the `ctx` package. -/
def headerContentTypeText : String := "text/plain; charset=utf-8"

/-- The `DefaultContext` from the `ctx` package.  The 32-slot stack parameter
array is embedded as the list of its slot contents (`resetCommon` copies the
fresh bindings over the first slots and deliberately leaves the rest stale);
the four bit-packed `flags` bits are individual booleans (the packing is a
memory-density optimization); the `uint8` / `uint16` fields are reduced
modulo their width where assigned. -/
structure DefaultContext where
  w : Option RecordedResponse := none
  r : Option NetRequest := none
  fctx : Option FastRequestCtx := none
  params : List Param := []
  paramSlice : Option (List Param) := none
  paramCount : Nat := 0
  status : Nat := 0
  wroteBytes : Nat := 0
  route : String := ""
  wroteHeaderFlag : Bool := false
  jsonEscapeFlag : Bool := false
  hasQueryCacheFlag : Bool := false
  isFastHTTPFlag : Bool := false
  queryCache : Option (List (String × List String)) := none
  responseBuffer : List Nat := []
  jsonBuffer : List Nat := []

/-- Flag reader `wroteHeader`. -/
def DefaultContext.wroteHeader (c : DefaultContext) : Bool := c.wroteHeaderFlag

/-- Flag reader `isFastHTTP`. -/
def DefaultContext.isFastHTTP (c : DefaultContext) : Bool := c.isFastHTTPFlag

/-- Flag reader `hasQueryCache`. -/
def DefaultContext.hasQueryCache (c : DefaultContext) : Bool := c.hasQueryCacheFlag

/-- The `resetCommon` from the `ctx` package, statement by statement:
parameter handling (zero params: leave the stack array untouched; up to 32:
copy over the first slots only, "don't clear unused slots"; more: heap
slice, clear the array), zero `status` and `wroteBytes`, reassign all flags
(jsonEscape set, fasthttp bit preserved), then the query-cache clear, which
tests `hasQueryCache` *after* the flags were reassigned, and finally
truncate both scratch buffers to length zero. -/
def DefaultContext.resetCommon (ps : List Param) (c : DefaultContext) : DefaultContext :=
  let paramLen := ps.length
  let c1 :=
    if paramLen = 0 then
      { c with paramCount := paramLen % 256, paramSlice := none }
    else if paramLen ≤ 32 then
      { c with paramCount := paramLen % 256,
               params := ps ++ c.params.drop paramLen,
               paramSlice := none }
    else
      { c with paramCount := paramLen % 256,
               paramSlice := some ps,
               params := List.replicate 32 ⟨"", ""⟩ }
  let c2 := { c1 with status := 0, wroteBytes := 0 }
  let c3 := { c2 with wroteHeaderFlag := false, jsonEscapeFlag := true,
                      hasQueryCacheFlag := false }
  let c4 :=
    if c3.hasQueryCache then
      { c3 with queryCache := none, hasQueryCacheFlag := false }
    else
      c3
  { c4 with responseBuffer := [], jsonBuffer := [] }

/-- The `Reset` from the `ctx` package: enter net/http mode (clear the fasthttp
handle), install the new writer/request/route, then `resetCommon`. -/
def DefaultContext.Reset (w : RecordedResponse) (r : NetRequest) (ps : List Param)
    (route : String) (c : DefaultContext) : DefaultContext :=
  let c1 := { c with w := some w, r := some r, fctx := none, route := route,
                     isFastHTTPFlag := false }
  c1.resetCommon ps

/-- The `ResetFastHTTP` from the `ctx` package: enter fasthttp mode (clear the
net/http handles), install the new fasthttp context/route, then
`resetCommon`. -/
def DefaultContext.ResetFastHTTP (fctx : FastRequestCtx) (ps : List Param)
    (route : String) (c : DefaultContext) : DefaultContext :=
  let c1 := { c with fctx := some fctx, w := none, r := none, route := route,
                     isFastHTTPFlag := true }
  c1.resetCommon ps

/-- The `DefaultContext.Param`: scan the first `paramCount` stack slots when no
heap slice is in use, else `ByName` on the heap slice. -/
def DefaultContext.Param (c : DefaultContext) (name : String) : String :=
  match c.paramSlice with
  | none => byName (c.params.take c.paramCount) name
  | some sl => byName sl name

/-- The `DefaultContext.Route`. -/
def DefaultContext.Route (c : DefaultContext) : String := c.route

/-- The `DefaultContext.WroteHeader`. -/
def DefaultContext.WroteHeader (c : DefaultContext) : Bool := c.wroteHeader

/-- The `DefaultContext.Status`: stage the status code (`uint16` assignment). -/
def DefaultContext.Status (code : Nat) (c : DefaultContext) : DefaultContext :=
  { c with status := code % 65536 }

/-- The `DefaultContext.StatusCode`: the staged status, else 200 once the
header was written, else 0. -/
def DefaultContext.StatusCode (c : DefaultContext) : Nat :=
  if c.status ≠ 0 then c.status
  else if c.wroteHeader then 200
  else 0

/-- The `DefaultContext.Request`: nil in fasthttp mode. -/
def DefaultContext.Request (c : DefaultContext) : Option NetRequest :=
  if c.isFastHTTP then none else c.r

/-- The `DefaultContext.SetRequest`: no-op in fasthttp mode. -/
def DefaultContext.SetRequest (r : NetRequest) (c : DefaultContext) : DefaultContext :=
  if !c.isFastHTTP then { c with r := some r } else c

/-- The `DefaultContext.ResponseWriter`: nil in fasthttp mode. -/
def DefaultContext.ResponseWriter (c : DefaultContext) : Option RecordedResponse :=
  if c.isFastHTTP then none else c.w

/-- The `DefaultContext.SetResponseWriter`: no-op in fasthttp mode. -/
def DefaultContext.SetResponseWriter (w : RecordedResponse) (c : DefaultContext) : DefaultContext :=
  if !c.isFastHTTP then { c with w := some w } else c

/-- The `DefaultContext.FastHTTPCtx`: nil in net/http mode. -/
def DefaultContext.FastHTTPCtx (c : DefaultContext) : Option FastRequestCtx :=
  if c.isFastHTTP then c.fctx else none

/-- The `DefaultContext.Header`: branches on the mode; sets the header on the
live backing unconditionally (no wrote-header check in the source).
Key canonicalization by net/http is an external-collaborator detail and is
not modelled.  `none` models the nil-pointer dereference when the live
backing handle is absent. -/
def DefaultContext.Header (key value : String) (c : DefaultContext) : Option DefaultContext :=
  if c.isFastHTTP then
    match c.fctx with
    | some f => some { c with fctx := some (f.setRespHeader key value) }
    | none => none
  else
    match c.w with
    | some w => some { c with w := some { w with headerMap := mapInsert key [value] w.headerMap } }
    | none => none

/-- The `DefaultContext.AddHeader`: branches on the mode; appends a value. -/
def DefaultContext.AddHeader (key value : String) (c : DefaultContext) : Option DefaultContext :=
  if c.isFastHTTP then
    match c.fctx with
    | some f => some { c with fctx := some (f.addRespHeader key value) }
    | none => none
  else
    match c.w with
    | some w =>
      let vs := (mapLookup key w.headerMap).getD []
      some { c with w := some { w with headerMap := mapInsert key (vs ++ [value]) w.headerMap } }
    | none => none

/-- The `DefaultContext.SetHeaders`: the source reads `c.w.Header()` without
branching on the transport mode, so in fasthttp mode (`w` is nil) this
dereferences a nil pointer — modelled by `none`. -/
def DefaultContext.SetHeaders (headers : List (String × String)) (c : DefaultContext) :
    Option DefaultContext :=
  match c.w with
  | none => none
  | some w =>
    some { c with
      w := some { w with
        headerMap := headers.foldl (fun hm kv => mapInsert kv.1 [kv.2] hm) w.headerMap } }

/-- The `DefaultContext.SetContentType`: also reads `c.w.Header()` without a
mode branch (nil dereference in fasthttp mode). -/
def DefaultContext.SetContentType (contentType : String) (c : DefaultContext) :
    Option DefaultContext :=
  match c.w with
  | none => none
  | some w =>
    some { c with w := some { w with headerMap := mapInsert "Content-Type" [contentType] w.headerMap } }

/-- The `DefaultContext.String` (named `writeString` here because `String` is
the Lean string type): fasthttp path sets status, content type and body on
the buffered response unconditionally and marks the header written;
net/http path writes the header once (default content type, content
length), then appends the body. -/
def DefaultContext.writeString (status : Nat) (body : String) (c : DefaultContext) :
    Option DefaultContext :=
  if c.isFastHTTP then
    match c.fctx with
    | none => none
    | some f =>
      some { c with
        fctx := some (((f.setStatusCode status).setContentType headerContentTypeText).setBodyString body),
        wroteBytes := c.wroteBytes + body.length,
        wroteHeaderFlag := true }
  else
    match c.w with
    | none => none
    | some w =>
      if !c.wroteHeader then
        let w1 :=
          if headerGet "Content-Type" w.headerMap = "" then
            { w with headerMap := mapInsert "Content-Type" [headerContentTypeText] w.headerMap }
          else w
        let w2 := { w1 with headerMap := mapInsert "Content-Length" [toString body.length] w1.headerMap }
        let w3 := (w2.writeHeader status).write body
        some { c with w := some w3, wroteHeaderFlag := true,
                      wroteBytes := c.wroteBytes + body.length }
      else
        some { c with w := some (w.write body),
                      wroteBytes := c.wroteBytes + body.length }

/-- The `DefaultContext.Send`: the source uses `c.w` with *no* transport-mode
branch, so in fasthttp mode (`w` is nil) it dereferences a nil pointer —
modelled by `none`.  Otherwise: write the header once (optional content
type, content length), then write the bytes. -/
def DefaultContext.Send (status : Nat) (contentType : String) (b : String)
    (c : DefaultContext) : Option (Nat × DefaultContext) :=
  match c.w with
  | none => none
  | some w =>
    if !c.wroteHeader then
      let w1 :=
        if contentType ≠ "" ∧ headerGet "Content-Type" w.headerMap = "" then
          { w with headerMap := mapInsert "Content-Type" [contentType] w.headerMap }
        else w
      let w2 := { w1 with headerMap := mapInsert "Content-Length" [toString b.length] w1.headerMap }
      let w3 := (w2.writeHeader status).write b
      some (b.length, { c with w := some w3, wroteHeaderFlag := true,
                               wroteBytes := c.wroteBytes + b.length })
    else
      some (b.length, { c with w := some (w.write b),
                               wroteBytes := c.wroteBytes + b.length })

/-! ## Concrete fixtures used by the theorems -/

/-- A terminal handler on a trace state: records "H" and succeeds. -/
def traceHandler : Handler (List String) Unit := fun s => (s ++ ["H"], none)

/-- A pass-through middleware that records its name, then invokes its
inner continuation. -/
def traceMw (name : String) : Middleware (List String) Unit :=
  fun next s => next (s ++ [name])

/-- A short-circuiting middleware: records its name and returns without
invoking its inner continuation. -/
def traceStop (name : String) : Middleware (List String) Unit :=
  fun _ s => (s ++ [name], none)

/-- The `GET /ping` handler of the spec scenario. -/
def hPong : Handler Unit Unit := fun s => (s, none)

/-- App with only `GET /ping` registered (no middleware, no params, so it
lands in the `simple` map). -/
def appPing : AppState Unit Unit := handle "GET" "/ping" hPong [] {}

/-- First handler registered for `/r/:id`: records "h1". -/
def hDup1 : Handler (List String) Unit := fun s => (s ++ ["h1"], none)

/-- Second handler registered for `/r/:id`: records "h2". -/
def hDup2 : Handler (List String) Unit := fun s => (s ++ ["h2"], none)

/-- The same parameterized pattern `/r/:id` registered twice under GET. -/
def appDup : AppState (List String) Unit :=
  handle "GET" "/r/:id" hDup2 [] (handle "GET" "/r/:id" hDup1 [] {})

/-- An app state whose route cache records a miss for `GET /r/5`,
obtained by resolving that request against an empty route table. -/
def appCachedMiss : AppState Unit Unit := (findRoute "GET" "/r/5" ({} : AppState Unit Unit)).2

/-- A plain do-nothing handler. -/
def hPlain : Handler Unit Unit := fun s => (s, none)

/-- A fasthttp request context for `GET /ping`. -/
def fctxPing : FastRequestCtx := { reqMethod := "GET", reqPath := "/ping" }

/-- A pooled context re-armed in fasthttp mode for `GET /ping`. -/
def cFastPing : DefaultContext := DefaultContext.ResetFastHTTP fctxPing [] "/ping" {}

/-- A fasthttp request context for `GET /x`. -/
def fctxX : FastRequestCtx := { reqMethod := "GET", reqPath := "/x" }

/-- A pooled context re-armed in fasthttp mode for `GET /x`. -/
def cFastX : DefaultContext := DefaultContext.ResetFastHTTP fctxX [] "/x" {}

/-- A fresh net/http response recorder. -/
def wEmpty : RecordedResponse := {}

/-- A net/http request for `GET /x`. -/
def rGetX : NetRequest := { reqMethod := "GET", urlPath := "/x" }

/-- A handler recording "first", registered under the pattern `/r/:id`. -/
def hOver1 : Handler (List String) Unit := fun s => (s ++ ["first"], none)

/-- A handler recording "second", registered under the pattern `/r/:x`. -/
def hOver2 : Handler (List String) Unit := fun s => (s ++ ["second"], none)

/-- Two distinct but overlapping parameterized patterns registered under
GET: both `/r/:id` and `/r/:x` match any one-segment `/r/...` path. -/
def appOverlapBase : AppState (List String) Unit :=
  handle "GET" "/r/:x" hOver2 [] (handle "GET" "/r/:id" hOver1 [] {})

/-- A route cache at its 1000-entry bound: 1000 recorded misses for other
(method, path) keys, as 1000 earlier resolutions of distinct unmatched
paths leave behind. -/
def fullCache {σ ε : Type} : List (String × Option (RouteResult σ ε)) :=
  (List.range 1000).map fun i => ("GET:/z" ++ toString i, none)

/-- The overlapping-pattern app with its route cache full, so resolution
outcomes are no longer recorded. -/
def appOverlapFull : AppState (List String) Unit :=
  { appOverlapBase with routeCache := fullCache }

/-! ## Helper lemmas -/

/-- Looking up a key right after inserting it yields the inserted value. -/
theorem mapLookup_mapInsert_self {α : Type} (k : String) (v : α) (l : List (String × α)) :
    mapLookup k (mapInsert k v l) = some v := by
  induction l with
  | nil => simp [mapInsert, mapLookup]
  | cons hd tl ih =>
    obtain ⟨k', v'⟩ := hd
    by_cases h : k' = k <;> simp [mapInsert, mapLookup, h, ih]

/-- The function `skipSlash` never lengthens a list. -/
theorem skipSlash_length_le (s : List Char) : (skipSlash s).length ≤ s.length := by
  match s with
  | [] => simp [skipSlash]
  | c :: t => by_cases h : c = '/' <;> simp [skipSlash, h]

/-- One loop iteration of `matchRoute` strictly shrinks the pattern: after
dropping the current segment and one separating slash, fewer characters
remain than before. -/
theorem skipSlash_dropWhile_length_lt (c : Char) (t : List Char) :
    (skipSlash ((c :: t).dropWhile notSlash)).length < (c :: t).length := by
  by_cases h : notSlash c
  · have h1 : (c :: t).dropWhile notSlash = t.dropWhile notSlash := by
      simp [List.dropWhile_cons, h]
    have h2 := skipSlash_length_le (t.dropWhile notSlash)
    have h3 := (List.dropWhile_sublist (l := t) notSlash).length_le
    rw [h1]
    simp only [List.length_cons]
    omega
  · have hc : c = '/' := by simpa [notSlash] using h
    have h1 : (c :: t).dropWhile notSlash = c :: t := by
      simp [List.dropWhile_cons, h]
    rw [h1, hc]
    simp [skipSlash]

/-- Fuel irrelevance for the `matchRoute` loop: any fuel exceeding the
pattern length yields the same result, so `pattern.length + 1` in
`matchRoute` is always sufficient. -/
theorem matchLoopFuel_irrel :
    ∀ (f1 f2 : Nat) (pat path : List Char) (acc : List Param),
      pat.length < f1 → pat.length < f2 →
      matchLoopFuel f1 pat path acc = matchLoopFuel f2 pat path acc := by
  intro f1
  induction f1 with
  | zero => intro f2 pat path acc h1 h2; omega
  | succ n ih =>
    intro f2 pat path acc h1 h2
    cases f2 with
    | zero => omega
    | succ m =>
      cases pat with
      | nil => cases path <;> rfl
      | cons p pt =>
        cases path with
        | nil => rfl
        | cons q qt =>
          have hlt : (skipSlash ((p :: pt).dropWhile notSlash)).length < (p :: pt).length :=
            skipSlash_dropWhile_length_lt p pt
          have hn : (skipSlash ((p :: pt).dropWhile notSlash)).length < n := by
            simp only [List.length_cons] at h1 hlt ⊢; omega
          have hm : (skipSlash ((p :: pt).dropWhile notSlash)).length < m := by
            simp only [List.length_cons] at h2 hlt ⊢; omega
          simp only [matchLoopFuel]
          split
          · split
            · exact ih m _ _ _ hn hm
            · rfl
          · split
            · rfl
            · split
              · exact ih m _ _ _ hn hm
              · split
                · exact ih m _ _ _ hn hm
                · rfl

/-- Route registration never touches the dynamic-route cache. -/
theorem handle_routeCache {σ ε : Type} (m p : String) (h : Handler σ ε)
    (mws : List (Middleware σ ε)) (a : AppState σ ε) :
    (handle m p h mws a).routeCache = a.routeCache := by
  simp only [handle]
  split_ifs <;> rfl

/-! ## Claim theorems -/

/-- C1 counterexample: registering the parameterized pattern `/r/:id` twice
under GET does *not* store both registrations — the dynamic-route map is
keyed by `method:pattern`, so the second registration overwrites the first
(one entry remains), and resolving `/r/5` runs the *second* handler
(trace "h2"), not the first-registered one, contradicting the claimed
first-registration tie-break. -/
theorem C1_counterexample :
    appDup.static.length = 1 ∧
    ((findRoute "GET" "/r/5" appDup).1.map fun res => res.chain.exec []) =
      some (["h2"], none) ∧
    (["h2"], (none : Option Unit)) ≠ (["h1"], (none : Option Unit)) :=
  ⟨rfl, rfl, by decide⟩

/-- C1 (amended): registering the same parameterized pattern twice under the
same method keeps only the last registration (the map key `GET:/r/:id`
collides and the value is replaced); resolving a matching path returns the
last-registered chain, and repeating the resolution (now served from the
route cache) deterministically returns the same result. -/
theorem C1_last_registration_wins {σ ε : Type} (hFst hSnd : Handler σ ε) :
    (handle "GET" "/r/:id" hSnd [] (handle "GET" "/r/:id" hFst [] ({} : AppState σ ε))).static =
      [("GET:/r/:id", newFastChain [] hSnd)] ∧
    (findRoute "GET" "/r/5"
        (handle "GET" "/r/:id" hSnd [] (handle "GET" "/r/:id" hFst [] ({} : AppState σ ε)))).1 =
      some ⟨newFastChain [] hSnd, [⟨"id", "5"⟩], "/r/:id"⟩ ∧
    (findRoute "GET" "/r/5"
        (findRoute "GET" "/r/5"
          (handle "GET" "/r/:id" hSnd [] (handle "GET" "/r/:id" hFst [] ({} : AppState σ ε)))).2).1 =
      (findRoute "GET" "/r/5"
        (handle "GET" "/r/:id" hSnd [] (handle "GET" "/r/:id" hFst [] ({} : AppState σ ε)))).1 :=
  ⟨rfl, rfl, rfl⟩

/-- C2: with global middleware [A, B] and route middleware [C], registration
compiles the chain `A (B (C H))`; invoking it always executes A, then B,
then C, then the handler, in that order; and when the middleware in B's
position short-circuits (does not invoke its inner continuation), C and the
handler never run. -/
theorem C2_middleware_order (nA nB nC : String) (t : List String) :
    (handle "GET" "/mw" traceHandler [traceMw nC]
        (use [traceMw nA, traceMw nB] ({} : AppState (List String) Unit))).static =
      [("GET:/mw", newFastChain [traceMw nA, traceMw nB, traceMw nC] traceHandler)] ∧
    (newFastChain [traceMw nA, traceMw nB, traceMw nC] traceHandler).exec t =
      (t ++ [nA, nB, nC, "H"], none) ∧
    (newFastChain [traceMw nA, traceStop nB, traceMw nC] traceHandler).exec t =
      (t ++ [nA, nB], none) := by
  refine ⟨rfl, ?_, ?_⟩
  · simp [newFastChain, traceMw, traceHandler]
  · simp [newFastChain, traceMw, traceStop, traceHandler]

/-- C3: with only `GET /ping` registered, dispatch runs the registered
handler for `GET /ping`, reports not-found for `GET /pingx` (no entry's
path matches), and reports method-not-allowed for `POST /ping` (the path
exists under the different method GET). -/
theorem C3_fallback_classification :
    (serveDispatch "GET" "/ping" appPing).1 = .simpleHandler hPong ∧
    (serveDispatch "GET" "/pingx" appPing).1 = .notFound ∧
    (serveDispatch "POST" "/ping" appPing).1 = .methodNotAllowed :=
  ⟨rfl, rfl, rfl⟩

/-- C5: the wildcard pattern `/files/*rest` matches `/files/a/b/c`, binding
`rest` to the entire remaining path `a/b/c` with interior slashes
preserved, both at the matcher level and through full dynamic
resolution after registering the route. -/
theorem C5_wildcard_rest_binding {σ ε : Type} (h : Handler σ ε) :
    matchRoute "/files/*rest" "/files/a/b/c" = some [⟨"rest", "a/b/c"⟩] ∧
    (findRoute "GET" "/files/a/b/c"
        (handle "GET" "/files/*rest" h [] ({} : AppState σ ε))).1 =
      some ⟨newFastChain [] h, [⟨"rest", "a/b/c"⟩], "/files/*rest"⟩ :=
  ⟨by decide, rfl⟩

/-- A map lookup misses when no stored key equals the query key. -/
theorem mapLookup_eq_none {α : Type} (k : String) (l : List (String × α))
    (h : ∀ kv ∈ l, kv.1 ≠ k) : mapLookup k l = none := by
  induction l with
  | nil => rfl
  | cons hd tl ih =>
    obtain ⟨k', v⟩ := hd
    have hk : k' ≠ k := h (k', v) (List.mem_cons_self _ _)
    simpa [mapLookup, hk] using ih fun kv hkv => h kv (List.mem_cons_of_mem _ hkv)

/-- The query key `GET:/r/5` collides with none of the full cache's keys
(each starts with `GET:/z`, differing at the sixth character). -/
theorem fullCache_lookup_none {σ ε : Type} :
    mapLookup ("GET" ++ ":" ++ "/r/5") (fullCache (σ := σ) (ε := ε)) = none := by
  apply mapLookup_eq_none
  intro kv hkv
  simp only [fullCache, List.mem_map] at hkv
  obtain ⟨i, _, hi⟩ := hkv
  rw [← hi]
  show ("GET:/z" ++ toString i : String) ≠ "GET" ++ ":" ++ "/r/5"
  intro h
  have hd := congrArg String.data h
  simp only [String.data_append] at hd
  have hd1 : (['G', 'E', 'T', ':', '/', 'z'] : List Char) ++ (toString i).data =
      ['G', 'E', 'T', ':', '/', 'r', '/', '5'] := hd
  have h6 : ('z' : Char) = 'r' := congrArg (fun l => l.getD 5 ' ') hd1
  exact absurd h6 (by decide)

set_option maxRecDepth 2000 in
/-- C8 counterexample: with the route cache at its 1000-entry bound nothing
is recorded, so resolving twice re-scans the static map twice, and Go's
`range` order is randomized per scan.  Here both `/r/:id` and `/r/:x`
match `/r/5`: the first resolution, with the entries presented in one
order, returns the `/r/:id` match; the second resolution, with the entries
presented in the reverse order (a permutation of the same map entries),
returns the `/r/:x` match — the two results differ, so idempotence does
not hold regardless of whether the cache was populated. -/
theorem C8_counterexample :
    appOverlapFull.routeCache.length = 1000 ∧
    appOverlapFull.static.reverse.Perm appOverlapFull.static ∧
    ((findRouteOrd "GET" "/r/5" appOverlapFull.static appOverlapFull).1.map
       fun res => (res.pattern, res.params)) = some ("/r/:id", [⟨"id", "5"⟩]) ∧
    ((findRouteOrd "GET" "/r/5" appOverlapFull.static.reverse
        (findRouteOrd "GET" "/r/5" appOverlapFull.static appOverlapFull).2).1.map
       fun res => (res.pattern, res.params)) = some ("/r/:x", [⟨"x", "5"⟩]) ∧
    (some ("/r/:id", [⟨"id", "5"⟩]) : Option (String × List Param)) ≠
      some ("/r/:x", [⟨"x", "5"⟩]) := by
  have hlk : mapLookup ("GET" ++ ":" ++ "/r/5") appOverlapFull.routeCache = none :=
    fullCache_lookup_none
  have hfull : (fullCache (σ := List String) (ε := Unit)).length = 1000 := by
    show ((List.range 1000).map fun i => ("GET:/z" ++ toString i,
      (none : Option (RouteResult (List String) Unit)))).length = 1000
    rw [List.length_map, List.length_range]
  have hlen : ¬(appOverlapFull.routeCache.length < 1000) := by
    show ¬((fullCache (σ := List String) (ε := Unit)).length < 1000)
    rw [hfull]
    omega
  have hscan1 : scanDynamic "GET" "/r/5" appOverlapFull.static =
      some ⟨newFastChain [] hOver1, [⟨"id", "5"⟩], "/r/:id"⟩ := rfl
  have hscan2 : scanDynamic "GET" "/r/5" appOverlapFull.static.reverse =
      some ⟨newFastChain [] hOver2, [⟨"x", "5"⟩], "/r/:x"⟩ := rfl
  have hstep1 : findRouteOrd "GET" "/r/5" appOverlapFull.static appOverlapFull =
      (some ⟨newFastChain [] hOver1, [⟨"id", "5"⟩], "/r/:id"⟩, appOverlapFull) := by
    simp only [findRouteOrd, hlk, hscan1, if_neg hlen]
  have hstep2 : findRouteOrd "GET" "/r/5" appOverlapFull.static.reverse appOverlapFull =
      (some ⟨newFastChain [] hOver2, [⟨"x", "5"⟩], "/r/:x"⟩, appOverlapFull) := by
    simp only [findRouteOrd, hlk, hscan2, if_neg hlen]
  refine ⟨?_, List.reverse_perm _, ?_, ?_, by decide⟩
  · show (fullCache (σ := List String) (ε := Unit)).length = 1000
    exact hfull
  · rw [hstep1]
    rfl
  · rw [hstep1]
    show ((findRouteOrd "GET" "/r/5" appOverlapFull.static.reverse appOverlapFull).1.map
        fun res => (res.pattern, res.params)) = some ("/r/:x", [⟨"x", "5"⟩])
    rw [hstep2]
    rfl

/-- C8 (amended): for any iteration orders the runtime presents the static
map's entries in, resolving the same (method, path) twice yields identical
results whenever the first resolution's outcome was recorded in the route
cache — the key was already cached, or the cache was below its 1000-entry
bound (a cache hit changes cost only, never the outcome); and re-resolving
always yields the same result when the two scans enumerate the entries in
the same order.  (Only the remaining case — cache full and differing scan
orders over overlapping patterns — can differ; see the counterexample.) -/
theorem C8_cache_transparent_idempotence {σ ε : Type} (a : AppState σ ε) (m p : String)
    (o1 o2 : List (String × FastChain σ ε)) :
    ((mapLookup (m ++ ":" ++ p) a.routeCache).isSome = true ∨ a.routeCache.length < 1000 →
      (findRouteOrd m p o2 (findRouteOrd m p o1 a).2).1 = (findRouteOrd m p o1 a).1) ∧
    (findRouteOrd m p o1 (findRouteOrd m p o1 a).2).1 = (findRouteOrd m p o1 a).1 := by
  constructor
  · intro hrec
    rcases hc : mapLookup (m ++ ":" ++ p) a.routeCache with _ | cached
    · have hlen : a.routeCache.length < 1000 := by
        rcases hrec with hs | hl
        · rw [hc] at hs; simp at hs
        · exact hl
      rcases hs : scanDynamic m p o1 with _ | r
      · simp [findRouteOrd, hc, hs, hlen, mapLookup_mapInsert_self]
      · simp [findRouteOrd, hc, hs, hlen, mapLookup_mapInsert_self]
    · simp [findRouteOrd, hc]
  · rcases hc : mapLookup (m ++ ":" ++ p) a.routeCache with _ | cached
    · rcases hs : scanDynamic m p o1 with _ | r
      · by_cases hlen : a.routeCache.length < 1000
        · simp [findRouteOrd, hc, hs, hlen, mapLookup_mapInsert_self]
        · simp [findRouteOrd, hc, hs, hlen]
      · by_cases hlen : a.routeCache.length < 1000
        · simp [findRouteOrd, hc, hs, hlen, mapLookup_mapInsert_self]
        · simp [findRouteOrd, hc, hs, hlen]
    · simp [findRouteOrd, hc]

/-- C8 amended witness: on the same overlapping-pattern table but with the
cache below its bound, the first resolution records its outcome, and a
second resolution that enumerates the map entries in the *reverse* order
still returns the identical result — the cache hit changed cost only. -/
theorem C8_cache_transparent_idempotence_witness :
    ((mapLookup ("GET" ++ ":" ++ "/r/5") appOverlapBase.routeCache).isSome = true ∨
       appOverlapBase.routeCache.length < 1000) ∧
    (findRouteOrd "GET" "/r/5" appOverlapBase.static.reverse
        (findRouteOrd "GET" "/r/5" appOverlapBase.static appOverlapBase).2).1 =
      (findRouteOrd "GET" "/r/5" appOverlapBase.static appOverlapBase).1 :=
  ⟨Or.inr (by decide),
    (C8_cache_transparent_idempotence appOverlapBase "GET" "/r/5"
        appOverlapBase.static appOverlapBase.static.reverse).1 (Or.inr (by decide))⟩

/-- C10: a recorded route-cache entry (here: a recorded miss) is never
invalidated by registration — `handle` does not touch the cache, and
`findRoute` answers from the cache before scanning, so the cached outcome
keeps being returned even after a route is registered. -/
theorem C10_cache_entries_never_invalidated {σ ε : Type} (a : AppState σ ε)
    (m p m' p' : String) (h : Handler σ ε) (mws : List (Middleware σ ε))
    (cached : Option (RouteResult σ ε))
    (hc : mapLookup (m ++ ":" ++ p) a.routeCache = some cached) :
    (findRoute m p (handle m' p' h mws a)).1 = cached ∧
    (findRoute m p a).1 = cached := by
  refine ⟨?_, ?_⟩
  · simp only [findRoute, findRouteOrd, handle_routeCache, hc]
  · simp only [findRoute, findRouteOrd, hc]

/-- C10 witness: after a recorded miss for `GET /r/5` against an empty
table, registering `GET /r/:id` (which would match `/r/5`) does not change
the resolution outcome — `findRoute` keeps returning the cached miss. -/
theorem C10_cache_entries_never_invalidated_witness :
    mapLookup ("GET" ++ ":" ++ "/r/5") appCachedMiss.routeCache = some none ∧
    (matchRoute "/r/:id" "/r/5").isSome = true ∧
    ((findRoute "GET" "/r/5" (handle "GET" "/r/:id" hPlain [] appCachedMiss)).1 = none ∧
     (findRoute "GET" "/r/5" appCachedMiss).1 = none) :=
  ⟨rfl, by decide,
    C10_cache_entries_never_invalidated appCachedMiss "GET" "/r/5" "GET" "/r/:id"
      hPlain [] none rfl⟩

/-- After `resetCommon`, the parameter accessor observes exactly the fresh
bindings: the stale contents of the stack array beyond `paramCount` (which
`resetCommon` deliberately does not clear) are unobservable. -/
theorem Param_resetCommon (c : DefaultContext) (ps : List Param) (name : String) :
    (c.resetCommon ps).Param name = byName ps name := by
  by_cases h0 : ps.length = 0
  · have hnil : ps = [] := List.length_eq_zero.mp h0
    subst hnil
    simp [DefaultContext.resetCommon, DefaultContext.Param, DefaultContext.hasQueryCache, byName]
  · by_cases h32 : ps.length ≤ 32
    · have hlt : ps.length < 256 := by omega
      simp [DefaultContext.resetCommon, DefaultContext.Param,
        DefaultContext.hasQueryCache, h0, h32, Nat.mod_eq_of_lt hlt, List.take_left]
    · simp [DefaultContext.resetCommon, DefaultContext.Param,
        DefaultContext.hasQueryCache, h0, h32]

/-- The reset helper `resetCommon` zeroes the staged status, clears the wrote-header flag,
and leaves the transport handles and route pattern untouched. -/
theorem resetCommon_fields (c : DefaultContext) (ps : List Param) :
    (c.resetCommon ps).status = 0 ∧
    (c.resetCommon ps).wroteHeaderFlag = false ∧
    (c.resetCommon ps).w = c.w ∧
    (c.resetCommon ps).r = c.r ∧
    (c.resetCommon ps).fctx = c.fctx ∧
    (c.resetCommon ps).route = c.route := by
  simp only [DefaultContext.resetCommon, DefaultContext.hasQueryCache]
  split_ifs <;> simp_all

/-- C9: after a pooled context — in an arbitrary dirty state `c` from a
previous request — is re-armed by `Reset` (net/http) or `ResetFastHTTP`
(fasthttp), nothing from the previous request is observable: `Param` sees
exactly the new bindings, the staged status reads 0, the wrote-header flag
is cleared, the route is the new pattern, and the transport handles are
exactly the fresh ones (headers therefore live only in the new response
objects). -/
theorem C9_reset_isolation (c : DefaultContext) (w : RecordedResponse) (r : NetRequest)
    (f : FastRequestCtx) (ps : List Param) (route name : String) :
    ((c.Reset w r ps route).Param name = byName ps name ∧
     (c.Reset w r ps route).StatusCode = 0 ∧
     (c.Reset w r ps route).WroteHeader = false ∧
     (c.Reset w r ps route).Route = route ∧
     (c.Reset w r ps route).w = some w ∧
     (c.Reset w r ps route).r = some r ∧
     (c.Reset w r ps route).fctx = none) ∧
    ((c.ResetFastHTTP f ps route).Param name = byName ps name ∧
     (c.ResetFastHTTP f ps route).StatusCode = 0 ∧
     (c.ResetFastHTTP f ps route).WroteHeader = false ∧
     (c.ResetFastHTTP f ps route).Route = route ∧
     (c.ResetFastHTTP f ps route).fctx = some f ∧
     (c.ResetFastHTTP f ps route).w = none ∧
     (c.ResetFastHTTP f ps route).r = none) := by
  constructor
  · obtain ⟨h1, h2, h3, h4, h5, h6⟩ := resetCommon_fields
      { c with w := some w, r := some r, fctx := none, route := route,
               isFastHTTPFlag := false } ps
    refine ⟨Param_resetCommon _ ps name, ?_, ?_, ?_, ?_, ?_, ?_⟩ <;>
      simp [DefaultContext.Reset, DefaultContext.StatusCode, DefaultContext.WroteHeader,
        DefaultContext.wroteHeader, DefaultContext.Route, h1, h2, h3, h4, h5, h6]
  · obtain ⟨h1, h2, h3, h4, h5, h6⟩ := resetCommon_fields
      { c with fctx := some f, w := none, r := none, route := route,
               isFastHTTPFlag := true } ps
    refine ⟨Param_resetCommon _ ps name, ?_, ?_, ?_, ?_, ?_, ?_⟩ <;>
      simp [DefaultContext.ResetFastHTTP, DefaultContext.StatusCode, DefaultContext.WroteHeader,
        DefaultContext.wroteHeader, DefaultContext.Route, h1, h2, h3, h4, h5, h6]

/-- C6 (code bug): in fasthttp mode the write-once discipline is not
enforced.  After `String(200, "pong")` the context reports
`WroteHeader() = true` and the buffered response holds status 200; yet a
later `String(404, "late")` still replaces the response status and body,
and a later `Header` call still changes the response headers — the
post-flush changes are not no-ops, contradicting the claim and the
source's own doc comments on `WroteHeader` and `Header`. -/
theorem C6_fasthttp_write_after_flush_not_noop :
    ((cFastPing.writeString 200 "pong").map fun c1 => c1.WroteHeader) = some true ∧
    ((cFastPing.writeString 200 "pong").map fun c1 =>
        c1.fctx.map fun fc => (fc.response.statusCode, fc.response.body)) =
      some (some (200, "pong")) ∧
    (((cFastPing.writeString 200 "pong").bind fun c1 => c1.writeString 404 "late").map
        fun c2 => c2.fctx.map fun fc => (fc.response.statusCode, fc.response.body)) =
      some (some (404, "late")) ∧
    (((cFastPing.writeString 200 "pong").bind fun c1 =>
        DefaultContext.Header "X-Test" "1" c1).map
        fun c2 => c2.fctx.map fun fc => fc.response.respHeaders) =
      some (some [("X-Test", "1")]) :=
  ⟨rfl, rfl, rfl, rfl⟩

/-- C7 counterexample: in fasthttp mode the net/http writer is nil, and
`Send`, `SetHeaders` and `SetContentType` dereference it without a mode
branch — the response-writing / header-setting operation fails instead of
acting on the live backing or degrading to a no-op. -/
theorem C7_counterexample :
    cFastX.isFastHTTP = true ∧
    DefaultContext.Send 200 "text/plain" "hi" cFastX = none ∧
    DefaultContext.SetHeaders [("X-A", "1")] cFastX = none ∧
    DefaultContext.SetContentType "text/plain" cFastX = none :=
  ⟨rfl, rfl, rfl, rfl⟩

/-- C7 (amended): in fasthttp mode, the accessors and mutators that do
branch on the transport mode behave as claimed — `Request` and
`ResponseWriter` return the neutral absent value, `SetRequest` and
`SetResponseWriter` are no-ops, `Header` touches only the live fasthttp
backing, and `String` succeeds — but `Send`, `SetHeaders` and
`SetContentType` use the net/http writer unconditionally and fail (nil
dereference) in fasthttp mode. -/
theorem C7_mode_branching_amended (c : DefaultContext) (f : FastRequestCtx)
    (hmode : c.isFastHTTPFlag = true) (hw : c.w = none) (hf : c.fctx = some f)
    (r : NetRequest) (w : RecordedResponse) (k v ct b : String) (st : Nat)
    (hs : List (String × String)) :
    c.Request = none ∧
    c.ResponseWriter = none ∧
    DefaultContext.SetRequest r c = c ∧
    DefaultContext.SetResponseWriter w c = c ∧
    DefaultContext.Header k v c = some { c with fctx := some (f.setRespHeader k v) } ∧
    (DefaultContext.writeString st b c).isSome = true ∧
    DefaultContext.Send st ct b c = none ∧
    DefaultContext.SetHeaders hs c = none ∧
    DefaultContext.SetContentType ct c = none := by
  refine ⟨?_, ?_, ?_, ?_, ?_, ?_, ?_, ?_, ?_⟩ <;>
    simp [DefaultContext.Request, DefaultContext.ResponseWriter, DefaultContext.SetRequest,
      DefaultContext.SetResponseWriter, DefaultContext.Header, DefaultContext.writeString,
      DefaultContext.Send, DefaultContext.SetHeaders, DefaultContext.SetContentType,
      DefaultContext.isFastHTTP, hmode, hw, hf]

/-- C7 amended witness: the amended statement at a concrete fasthttp-mode
context. -/
theorem C7_mode_branching_amended_witness :
    (cFastX.isFastHTTPFlag = true ∧ cFastX.w = none ∧ cFastX.fctx = some fctxX) ∧
    (cFastX.Request = none ∧
     cFastX.ResponseWriter = none ∧
     DefaultContext.SetRequest rGetX cFastX = cFastX ∧
     DefaultContext.SetResponseWriter wEmpty cFastX = cFastX ∧
     DefaultContext.Header "X-K" "val" cFastX =
       some { cFastX with fctx := some (fctxX.setRespHeader "X-K" "val") } ∧
     (DefaultContext.writeString 200 "body" cFastX).isSome = true ∧
     DefaultContext.Send 200 "text/plain" "body" cFastX = none ∧
     DefaultContext.SetHeaders [] cFastX = none ∧
     DefaultContext.SetContentType "text/plain" cFastX = none) :=
  ⟨⟨rfl, rfl, rfl⟩,
    C7_mode_branching_amended cFastX fctxX rfl rfl rfl rGetX wEmpty
      "X-K" "val" "text/plain" "body" 200 []⟩

/-- The one-iteration unfolding of the `matchRoute` loop for cons-shaped
pattern and path. -/
theorem matchLoopFuel_step (fuel : Nat) (p : Char) (pt : List Char) (q : Char)
    (qt : List Char) (acc : List Param) :
    matchLoopFuel (fuel + 1) (p :: pt) (q :: qt) acc =
      match (p :: pt).takeWhile notSlash with
      | [] =>
        if ([] : List Char) = (q :: qt).takeWhile notSlash then
          matchLoopFuel fuel (skipSlash ((p :: pt).dropWhile notSlash))
            (skipSlash ((q :: qt).dropWhile notSlash)) acc
        else none
      | pc :: nm =>
        if pc = '*' then some (acc ++ [⟨String.mk nm, String.mk (q :: qt)⟩])
        else if pc = ':' then
          matchLoopFuel fuel (skipSlash ((p :: pt).dropWhile notSlash))
            (skipSlash ((q :: qt).dropWhile notSlash))
            (acc ++ [⟨String.mk nm, String.mk ((q :: qt).takeWhile notSlash)⟩])
        else if (p :: pt).takeWhile notSlash = (q :: qt).takeWhile notSlash then
          matchLoopFuel fuel (skipSlash ((p :: pt).dropWhile notSlash))
            (skipSlash ((q :: qt).dropWhile notSlash)) acc
        else none := rfl

/-- The binding step against the pattern remainder `:x/b`: any slash-free
segment `V` is bound to `x` and the trailing literal `b` still matches. -/
theorem matchLoopFuel_colon_xb (V : List Char) (hV : ∀ ch ∈ V, notSlash ch = true)
    (acc : List Param) :
    matchLoopFuel 7 [':', 'x', '/', 'b'] (V ++ ['/', 'b']) acc =
      some (acc ++ [⟨"x", String.mk V⟩]) := by
  cases V with
  | nil => rfl
  | cons ch rest =>
    have hch : notSlash ch = true := hV ch (List.mem_cons_self ch rest)
    have hrest : ∀ a ∈ rest, notSlash a = true := fun a ha =>
      hV a (List.mem_cons_of_mem ch ha)
    have htake : (ch :: (rest ++ ['/', 'b'])).takeWhile notSlash = ch :: rest := by
      simp [List.takeWhile_cons_of_pos hch, List.takeWhile_append_of_pos hrest, notSlash]
    have hdrop : (ch :: (rest ++ ['/', 'b'])).dropWhile notSlash = ['/', 'b'] := by
      simp [List.dropWhile_cons_of_pos hch, List.dropWhile_append_of_pos hrest, notSlash]
    show matchLoopFuel (6 + 1) [':', 'x', '/', 'b'] (ch :: (rest ++ ['/', 'b'])) acc =
      some (acc ++ [⟨"x", String.mk (ch :: rest)⟩])
    rw [matchLoopFuel_step 6 ':' ['x', '/', 'b'] ch (rest ++ ['/', 'b']) acc]
    rw [htake, hdrop]
    rfl

/-- C4 counterexample: the claim says a named capture accepts *any*
segment content, failing only when the segment is absent.  But for the
segment content `:x` the request path coincides textually with the pattern,
and `matchRoute`'s exact-equality shortcut returns the no-parameter (nil)
result, which dynamic resolution treats as a miss — no binding `x = ":x"`
is produced.  The second conjunct shows the very same path *is* matched,
with the segment bound, by an otherwise-identical pattern `/a/:q/b`, so the
segment is genuinely present and the failure is the equality shortcut. -/
theorem C4_counterexample :
    matchRoute "/a/:x/b" ("/a/" ++ ":x" ++ "/b") = none ∧
    matchRoute "/a/:q/b" ("/a/" ++ ":x" ++ "/b") = some [⟨"q", ":x"⟩] :=
  ⟨by decide, by decide⟩

/-- C4 (amended): for the pattern `/a/:x/b`, every slash-free segment VAL —
including the empty string — except the one that makes the path textually
equal to the pattern itself (VAL = ":x", swallowed by the exact-match
shortcut) is accepted and bound to `x`; a path with the segment genuinely
absent (`/a/b`) is a miss. -/
theorem C4_param_binding_amended (VAL : String)
    (hfree : ∀ ch ∈ VAL.data, ch ≠ '/')
    (hne : VAL ≠ ":x") :
    matchRoute "/a/:x/b" ("/a/" ++ VAL ++ "/b") = some [⟨"x", VAL⟩] ∧
    matchRoute "/a/:x/b" "/a/b" = none := by
  refine ⟨?_, by decide⟩
  obtain ⟨d⟩ := VAL
  have hVn : ∀ ch ∈ d, notSlash ch = true := by
    intro ch hch
    have hne2 := hfree ch hch
    simp [notSlash, hne2]
  have hdata : (("/a/" : String) ++ ⟨d⟩ ++ "/b").data =
      '/' :: 'a' :: '/' :: (d ++ ['/', 'b']) := by
    rw [String.data_append, String.data_append, List.append_assoc]
    rfl
  have hne' : ("/a/:x/b" : String) ≠ ("/a/" : String) ++ ⟨d⟩ ++ "/b" := by
    intro h
    apply hne
    have hd0 := congrArg String.data h
    rw [hdata] at hd0
    have hd1 : (['/', 'a', '/', ':', 'x', '/', 'b'] : List Char) =
        '/' :: 'a' :: '/' :: (d ++ ['/', 'b']) := hd0
    have h3 : ([':', 'x', '/', 'b'] : List Char) = d ++ ['/', 'b'] := by
      simpa using hd1
    have h5 : ([':', 'x'] : List Char) = d :=
      List.append_cancel_right
        (show ([':', 'x'] : List Char) ++ ['/', 'b'] = d ++ ['/', 'b'] from h3)
    rw [← h5]
  unfold matchRoute
  rw [if_neg hne']
  rw [if_neg (show ¬((!containsParams "/a/:x/b") = true) by decide)]
  rw [hdata]
  show matchLoopFuel (7 + 1) ['a', '/', ':', 'x', '/', 'b']
      ('a' :: ('/' :: (d ++ ['/', 'b']))) [] = some [⟨"x", String.mk d⟩]
  rw [matchLoopFuel_step 7 'a' ['/', ':', 'x', '/', 'b'] 'a' ('/' :: (d ++ ['/', 'b'])) []]
  show matchLoopFuel 7 [':', 'x', '/', 'b'] (d ++ ['/', 'b']) [] = some [⟨"x", String.mk d⟩]
  rw [matchLoopFuel_colon_xb d hVn []]
  rfl

/-- C4 amended witness: the empty segment — path `/a//b` — is accepted and
binds `x` to the empty string. -/
theorem C4_param_binding_amended_witness :
    (∀ ch ∈ ("" : String).data, ch ≠ '/') ∧ ("" : String) ≠ ":x" ∧
    (matchRoute "/a/:x/b" ("/a/" ++ "" ++ "/b") = some [⟨"x", ""⟩] ∧
     matchRoute "/a/:x/b" "/a/b" = none) :=
  ⟨by decide, by decide, C4_param_binding_amended "" (by decide) (by decide)⟩
